import Mathlib

/-!
Verification of the token-price-storage-system repository.

Shallow embedding conventions:
* JS numbers are modelled as `Rat` (the interpolation arithmetic is exact
  rational arithmetic on the inputs involved in the claims).
* JS `Date` instants (`new Date(ts).getTime()`) are modelled as `Int`
  milliseconds since the epoch; an ISO-8601 timestamp string and its parsed
  epoch value determine each other, so records carry the epoch value.
* A JS value that may be `null` is an `Option`; a JS call that may throw is
  an `Except String`.
-/

namespace TokenPriceStorage

/-- A stored price point as consumed by the interpolation engine
(`src/unnamed/part_001`, `InterpolationEngine`): `ts` is the record's
timestamp in epoch milliseconds, `usd` the price `price.usd`. -/
structure PricePoint where
  ts : Int
  usd : Rat
deriving Repr, DecidableEq

/-- The record returned by `linearInterpolation` / `extrapolatePrice`:
the synthesized `price.usd`, the `method` tag and the `points` used. -/
structure InterpResult where
  usd : Rat
  method : String
  points : List PricePoint
deriving Repr, DecidableEq

/-- The `ratio` computed by `InterpolationEngine.linearInterpolation`:
`totalTimeDiff === 0 ? 0 : targetTimeDiff / totalTimeDiff`. -/
def ratioOf (beforeP afterP : PricePoint) (target : Int) : Rat :=
  let totalTimeDiff : Int := afterP.ts - beforeP.ts
  let targetTimeDiff : Int := target - beforeP.ts
  if totalTimeDiff = 0 then 0 else (targetTimeDiff : Rat) / (totalTimeDiff : Rat)

/-- `InterpolationEngine.linearInterpolation` (src/unnamed/part_001 lines
503-524): `usd = beforeUsd + (afterUsd - beforeUsd) * ratio`, method
"linear", points `[beforePrice, afterPrice]`. -/
def linearInterpolation (beforeP afterP : PricePoint) (target : Int) : InterpResult :=
  let ratio := ratioOf beforeP afterP target
  { usd := beforeP.usd + (afterP.usd - beforeP.usd) * ratio
    method := "linear"
    points := [beforeP, afterP] }

/-- Stable insertion (an element moves past entries with strictly larger
`ts`, staying after equal ones), used to model the stable ascending
`prices.sort((a, b) => new Date(a.timestamp) - new Date(b.timestamp))`. -/
def insertByTs (p : PricePoint) : List PricePoint → List PricePoint
  | [] => [p]
  | q :: qs => if p.ts < q.ts then p :: q :: qs else q :: insertByTs p qs

/-- Stable ascending sort by timestamp, modelling the JS `Array.sort`
call (stable per the ECMAScript spec). -/
def sortByTs (l : List PricePoint) : List PricePoint :=
  l.foldl (fun acc p => insertByTs p acc) []

/-- The last two entries of a list, i.e. `(xs[len-2], xs[len-1])`;
`none` when the list has fewer than two entries. -/
def lastTwo (l : List PricePoint) : Option (PricePoint × PricePoint) :=
  match l.reverse with
  | b :: a :: _ => some (a, b)
  | _ => none

/-- The trend-point selection of `InterpolationEngine.extrapolatePrice`:
when the target lies before the earliest sorted point the code
extrapolates backwards from `(sorted[0], sorted[1])`, otherwise forwards
from `(sorted[len-2], sorted[len-1])`; `none` with fewer than two points
(the `getD` fallback is unreachable: a two-or-more list has a last pair). -/
def trendPoints (sorted : List PricePoint) (target : Int) :
    Option (PricePoint × PricePoint) :=
  match sorted with
  | p0 :: p1 :: rest =>
    some (if target < p0.ts then (p0, p1) else (lastTwo (p0 :: p1 :: rest)).getD (p0, p1))
  | _ => none

/-- `InterpolationEngine.extrapolatePrice` (src/unnamed/part_001 lines
526-569).  `pct` is `config.interpolation.extrapolationMaxChangePercent`
(env-driven, default 50).  The source's `{ price: null, method: "none" }`
returns (fewer than two points, or `timeDiff === 0`) are collapsed to
`none`, exactly how the caller treats them. -/
def extrapolatePrice (pct : Rat) (prices : List PricePoint) (target : Int) :
    Option InterpResult :=
  if prices.length < 2 then none
  else
    match trendPoints (sortByTs prices) target with
    | none => none
    | some (pA, pB) =>
      let timeDiff : Int := pB.ts - pA.ts
      if timeDiff = 0 then none
      else
        let priceDiff : Rat := pB.usd - pA.usd
        let priceChangeRate : Rat := priceDiff / (timeDiff : Rat)
        let raw : Rat := pB.usd + priceChangeRate * ((target - pB.ts : Int) : Rat)
        let maxChange : Rat := |pB.usd * (pct / 100)|
        let bounded : Rat := max (pB.usd - maxChange) (min (pB.usd + maxChange) raw)
        let finalUsd : Rat := max (1 / 10000) bounded
        some { usd := finalUsd, method := "extrapolation", points := [pA, pB] }

/-- The linear branch of `InterpolationEngine.calculateConfidence`
(src/unnamed/part_001 lines 577-593), for `dataPoints = [beforePrice,
afterPrice]`.  Note `targetPosition` is `0.5` when `totalSpan === 0`,
and `volatility` is `1` when `avgPrice === 0`. -/
def linearConfidence (beforeP afterP : PricePoint) (target : Int) : Rat :=
  let totalSpan : Int := afterP.ts - beforeP.ts
  let targetPosition : Rat :=
    if totalSpan = 0 then 1 / 2
    else ((target - beforeP.ts : Int) : Rat) / (totalSpan : Rat)
  let timeConfidence : Rat := 1 - |(1 : Rat) / 2 - targetPosition| * 2
  let priceDiff : Rat := |afterP.usd - beforeP.usd|
  let avgPrice : Rat := (afterP.usd + beforeP.usd) / 2
  let volatility : Rat := if avgPrice = 0 then 1 else priceDiff / avgPrice
  let volatilityConfidence : Rat := max 0 (1 - volatility)
  min 1 ((timeConfidence + volatilityConfidence) / 2)

/-- The extrapolation branch of `InterpolationEngine.calculateConfidence`
(src/unnamed/part_001 lines 594-611): time confidence decays with the
distance from the last known point over the known data span, volatility
is taken on the last two (sorted) points. -/
def extrapolationConfidence (ps : List PricePoint) (target : Int) : Rat :=
  let sorted := sortByTs ps
  match lastTwo sorted, sorted.head?, sorted.getLast? with
  | some (p1, p2), some firstKnown, some lastKnown =>
    let dataSpan : Int := lastKnown.ts - firstKnown.ts
    let extrapolationDistance : Rat := |((target - lastKnown.ts : Int) : Rat)|
    let timeConfidence : Rat :=
      if dataSpan = 0 then 1 / 10
      else max (1 / 10) (1 - extrapolationDistance / (dataSpan : Rat))
    let priceDiff : Rat := |p2.usd - p1.usd|
    let avgPrice : Rat := (p2.usd + p1.usd) / 2
    let volatility : Rat := if avgPrice = 0 then 1 else priceDiff / avgPrice
    let volatilityConfidence : Rat := max 0 (1 - volatility)
    min 1 ((timeConfidence + volatilityConfidence) / 2)
  | _, _, _ => 0

/-- `InterpolationEngine.calculateConfidence` (src/unnamed/part_001 lines
571-618): dispatches on the method tag and the number of data points;
any other combination returns 0. -/
def calculateConfidence (dataPoints : List PricePoint) (target : Int)
    (method : String) : Rat :=
  if dataPoints.length = 0 then 0
  else
    match method, dataPoints with
    | "linear", [beforeP, afterP] => linearConfidence beforeP afterP target
    | "extrapolation", ps =>
      if 2 ≤ ps.length then extrapolationConfidence ps target else 0
    | _, _ => 0

/-- The `config.interpolation` block of src/scripts/config.js with its
env-variable defaults; `maxTimeGapHours` is in hours. -/
structure InterpolationConfig where
  maxDataPoints : Nat := 20
  maxTimeGapHours : Int := 24
  minConfidenceThreshold : Rat := 3 / 10
  extrapolationMaxChangePercent : Rat := 50
deriving Repr

/-- The record returned by `InterpolationEngine.interpolatePrice` on
success (token/network/timestamp echo the inputs and are omitted). -/
structure InterpolatedRecord where
  usd : Rat
  method : String
  confidence : Rat
  points : List PricePoint
deriving Repr, DecidableEq

/-- `InterpolationEngine.interpolatePrice` (src/unnamed/part_001 lines
412-501).  The durable-store call `dbManager.getNearestPrices` is the one
collaborator that can throw inside the body's `try`; it is passed in as
an `Except` and the surrounding `catch (error) { return null }` maps the
error case to `none`.  The filter keeps points with
`|target - p.ts| / 3600000 <= maxTimeGapHours` hours. -/
def interpolatePrice (cfg : InterpolationConfig)
    (nearest : Except String (List PricePoint)) (target : Int) :
    Option InterpolatedRecord :=
  match nearest with
  | .error _ => none
  | .ok nearestPrices =>
    if nearestPrices.length < 2 then none
    else
      let filteredPrices := nearestPrices.filter
        (fun p => decide (|target - p.ts| ≤ cfg.maxTimeGapHours * 3600000))
      if filteredPrices.length < 2 then none
      else
        let beforePrices := filteredPrices.filter (fun p => decide (p.ts < target))
        let afterPrices := filteredPrices.filter (fun p => decide (target < p.ts))
        let chosen : Option InterpResult :=
          if beforePrices.isEmpty || afterPrices.isEmpty then
            extrapolatePrice cfg.extrapolationMaxChangePercent filteredPrices target
          else
            match beforePrices.getLast?, afterPrices.head? with
            | some beforePrice, some afterPrice =>
              some (linearInterpolation beforePrice afterPrice target)
            | _, _ => none
        match chosen with
        | none => none
        | some res =>
          if res.usd ≤ 0 then none
          else
            let confidence := calculateConfidence res.points target res.method
            if confidence < cfg.minConfidenceThreshold then none
            else some { usd := res.usd, method := res.method,
                        confidence := confidence, points := res.points }

/-! The durable store (src/scripts/database-manager.js). -/

/-- The string form of an optional timestamp as used in document-id
construction: `priceData.timestamp || "current"`. -/
def tsKey (timestamp : Option Int) : String :=
  match timestamp with
  | some n => toString n
  | none => "current"

/-- JS `String.prototype.toLowerCase`, modelled characterwise. -/
def lowerStr (s : String) : String := String.mk (s.toList.map Char.toLower)

/-- The shape of the priceData objects handed to
`DatabaseManager.storeTokenPrice` (produced by the oracle client or the
interpolation path); `timestamp` is the optional ISO timestamp, modelled
by its epoch-millisecond value, `none` meaning a current-price record
keyed by the literal "current". -/
structure PriceData where
  token : String
  network : String
  timestamp : Option Int
  usd : Rat
  interpolated : Bool := false
deriving Repr, DecidableEq

/-- The deterministic document id
`token + "_" + network + "_" + (timestamp || "current")`. -/
def docIdOf (p : PriceData) : String :=
  p.token ++ "_" ++ p.network ++ "_" ++ tsKey p.timestamp

/-- A document of the prices collection.  `storedAt` is written by
storeTokenPrice; `createdAt` is the field the archival filter and the TTL
index use - storeTokenPrice never writes it, hence the Option.
`archivedAt` and `compressed` appear only on copies in the archived
collection. -/
structure StoredPrice where
  docId : String
  token : String
  network : String
  timestamp : Option Int
  usd : Rat
  interpolated : Bool
  storedAt : Int
  createdAt : Option Int
  archivedAt : Option Int := none
  compressed : Option Bool := none
deriving Repr, DecidableEq

/-- `DatabaseManager.storeTokenPrice` (src/scripts/database-manager.js
lines 75-100): spreads priceData, adds `storedAt` and the deterministic
`_id`, then `replaceOne` upsert on `_id`.  The token is NOT lowercased
here and no `createdAt` field is written.  The metadata and
daily-historical side effects touch other collections and are not
modelled. -/
def storeTokenPrice (now : Int) (priceData : PriceData)
    (prices : List StoredPrice) : List StoredPrice :=
  let newId := docIdOf priceData
  let doc : StoredPrice :=
    { docId := newId, token := priceData.token, network := priceData.network,
      timestamp := priceData.timestamp, usd := priceData.usd,
      interpolated := priceData.interpolated, storedAt := now, createdAt := none }
  if prices.any (fun d => d.docId == newId) then
    prices.map (fun d => if d.docId == newId then doc else d)
  else
    prices ++ [doc]

/-- Mongo sort order on the optional timestamp field: a document missing
the field sorts before any present value. -/
def tsBefore : Option Int → Option Int → Bool
  | none, some _ => true
  | some m, some n => m < n
  | _, _ => false

/-- `DatabaseManager.getTokenPrice` (src/scripts/database-manager.js
lines 102-119): the query lowercases the token; exact timestamp match
when a timestamp is given, otherwise the most recent record (sort
timestamp DESC, findOne), modelled as a fold picking the largest
timestamp among the matches. -/
def getTokenPrice (prices : List StoredPrice) (token network : String)
    (timestamp : Option Int) : Option StoredPrice :=
  match timestamp with
  | some ts =>
    prices.find? (fun d =>
      d.token == lowerStr token && d.network == network && d.timestamp == some ts)
  | none =>
    (prices.filter (fun d => d.token == lowerStr token && d.network == network)).foldl
      (fun acc d =>
        match acc with
        | none => some d
        | some m => if tsBefore m.timestamp d.timestamp then some d else some m)
      none

/-- The prices and archived collections, the two touched by archival. -/
structure DbState where
  prices : List StoredPrice := []
  archived : List StoredPrice := []
deriving Repr, DecidableEq

/-- `DatabaseManager.archiveOldData` (src/scripts/database-manager.js
lines 259-292): cutoff is now minus `daysOld` days; find the prices
documents with `createdAt < cutoff` (in Mongo a document without a
`createdAt` field does not match the $lt filter), copy them to the
archived collection with `archivedAt` and the compressed flag
(compressionEnabled defaults to true), delete exactly those from prices,
and return how many were found. -/
def archiveOldData (now : Int) (daysOld : Int) (st : DbState) : DbState × Nat :=
  let cutoffDate := now - daysOld * 86400000
  let isOld : StoredPrice → Bool := fun d =>
    match d.createdAt with
    | some c => decide (c < cutoffDate)
    | none => false
  let oldData := st.prices.filter isOld
  if 0 < oldData.length then
    ({ prices := st.prices.filter (fun d => !(isOld d)),
       archived := st.archived ++ oldData.map
         (fun d => { d with archivedAt := some now, compressed := some true }) },
     oldData.length)
  else (st, oldData.length)

/-! The oracle client retry wrapper (src/scripts/alchemy-service.js). -/

/-- The outcome of one `getTokenPrice` call as seen by the retry wrapper:
a truthy price, a null, or a thrown error. -/
inductive FetchOutcome where
  | price (p : PriceData)
  | noPrice
  | err (e : String)
deriving Repr, DecidableEq

/-- Observable behaviour of one `getTokenPriceWithRetry` run: the final
result (thrown error, or price-or-null), the number of `getTokenPrice`
attempts made, and the backoff sleeps performed in ms, in order. -/
structure RetryRun where
  result : Except String (Option PriceData)
  calls : Nat
  sleepsMs : List Nat
deriving Repr

/-- The attempt loop of `AlchemyService.getTokenPriceWithRetry`
(src/scripts/alchemy-service.js lines 109-126), attempts numbered
`attempt`, `attempt+1`, ...; the fuel argument is
`maxRetries - attempt + 1`, the number of iterations left.  A truthy
price returns it; a null falls through to the next iteration with no
sleep; a thrown error rethrows when `attempt === maxRetries` and
otherwise sleeps `2^attempt * retryDelay` ms and retries.  When the loop
exhausts its attempts the function returns null. -/
def retryFrom (oracle : Nat → FetchOutcome) (maxRetries retryDelay : Nat) :
    Nat → Nat → RetryRun
  | _, 0 => { result := .ok none, calls := 0, sleepsMs := [] }
  | attempt, fuel + 1 =>
    match oracle attempt with
    | .price p => { result := .ok (some p), calls := 1, sleepsMs := [] }
    | .noPrice =>
      let rest := retryFrom oracle maxRetries retryDelay (attempt + 1) fuel
      { result := rest.result, calls := rest.calls + 1, sleepsMs := rest.sleepsMs }
    | .err e =>
      if attempt = maxRetries then
        { result := .error e, calls := 1, sleepsMs := [] }
      else
        let rest := retryFrom oracle maxRetries retryDelay (attempt + 1) fuel
        { result := rest.result, calls := rest.calls + 1,
          sleepsMs := 2 ^ attempt * retryDelay :: rest.sleepsMs }

/-- `AlchemyService.getTokenPriceWithRetry`: the loop starting at
attempt 1 with maxRetries iterations available. -/
def getTokenPriceWithRetry (oracle : Nat → FetchOutcome)
    (maxRetries retryDelay : Nat) : RetryRun :=
  retryFrom oracle maxRetries retryDelay 1 maxRetries

/-! The service surface (src/unnamed/part_002, the enhanced server). -/

/-- The config entries of src/scripts/config.js read by the handler and
workers, with their environment-variable defaults (note the default
supported-network list from config.js line 108). -/
structure AppConfig where
  appName : String := "token-price-storage-system"
  cacheTtlCurrentPrice : Nat := 300
  cacheTtlHistoricalPrice : Nat := 3600
  cacheTtlInterpolatedPrice : Nat := 1800
  supportedNetworks : List String := ["ethereum", "polygon", "arbitrum", "optimism"]
deriving Repr, DecidableEq

/-- The configuration with every environment default. -/
def defaultConfig : AppConfig := {}

/-- A hexadecimal character class, `[a-fA-F0-9]`. -/
def isHexDigit (c : Char) : Bool :=
  c.isDigit || ('a' ≤ c && c ≤ 'f') || ('A' ≤ c && c ≤ 'F')

/-- The token validation regex of the handler,
`^0x[a-fA-F0-9]{40}$` (src/unnamed/part_002 line 85), expressed on the
character list: the literal 0x followed by exactly forty hex digits. -/
def tokenRegexMatches (s : String) : Bool :=
  match s.toList with
  | '0' :: 'x' :: rest => rest.length = 40 && rest.all isHexDigit
  | _ => false

/-- `generateCacheKey` (src/unnamed/part_002 lines 67-70):
`appName:price:network:token_lowercase:(timestamp | current)`. -/
def generateCacheKey (cfg : AppConfig) (token network : String)
    (timestamp : Option Int) : String :=
  cfg.appName ++ ":price:" ++ network ++ ":" ++ lowerStr token ++ ":" ++ tsKey timestamp

/-- The data payload of a /api/tokens reply, tagged by which tier
produced it (the cached/fromDB/fromAPI/interpolated flags). -/
inductive ReplyData where
  | cachedData (usd : Rat)
  | dbData (doc : StoredPrice)
  | apiData (p : PriceData)
  | interpolatedData (p : PriceData)
deriving Repr, DecidableEq

/-- The externally visible part of a /api/tokens response. -/
structure ApiReply where
  status : Nat
  data : Option ReplyData
  queued : Bool
deriving Repr, DecidableEq

/-- Side effects performed by the handler, in program order.  A cache
write records the derived key, the TTL passed to `setEx`, and the usd of
the value written. -/
inductive Effect where
  | cacheSetEx (key : String) (ttlSeconds : Nat) (usd : Rat)
  | dbStorePrice (p : PriceData)
  | addTokenEntry (token network : String)
  | enqueueFetchMissingPrice (token network : String) (timestamp : Option Int)
      (priority : Nat)
deriving Repr, DecidableEq

/-- An incoming request body; absent fields are `none` (JS also treats an
empty string as missing, via falsiness). -/
structure ApiRequest where
  token : Option String
  network : Option String
  timestamp : Option Int
deriving Repr, DecidableEq

/-- The per-request results of the four lookup tiers, passed in as data:
the Redis `get` (identified by the usd of the cached value), the
`dbManager.getTokenPrice` result, the `alchemyService.getTokenPrice`
result, and the `interpolationEngine.interpolatePrice` result (the last
reduced to its stored PriceData shape).  `knownToken` is whether
`getAllTokens` finds the token, `creationDate` the
`getTokenCreationDate` result. -/
structure TierBackends where
  cached : Option Rat := none
  dbPrice : Option StoredPrice := none
  alchemyPrice : Option PriceData := none
  interpolated : Option PriceData := none
  knownToken : Bool := false
  creationDate : Option Int := none
deriving Repr, DecidableEq

/-- The POST /api/tokens handler (src/unnamed/part_002 lines 73-219):
validation (required fields, token regex, supported network on the
lowercased name), then cache, durable store (cached with the
current-price TTL), oracle (stored and cached with the current-price TTL,
plus best-effort token-registry write), interpolation (cached with the
interpolated TTL, stored with interpolated=true), and finally the
deferred-fill enqueue returning 202/queued. -/
def postApiTokens (cfg : AppConfig) (req : ApiRequest) (tiers : TierBackends) :
    ApiReply × List Effect :=
  let token := req.token.getD ""
  let network := req.network.getD ""
  if token = "" ∨ network = "" then
    ({ status := 400, data := none, queued := false }, [])
  else if !(tokenRegexMatches token) then
    ({ status := 400, data := none, queued := false }, [])
  else if !(cfg.supportedNetworks.contains (lowerStr network)) then
    ({ status := 400, data := none, queued := false }, [])
  else
    let cacheKey := generateCacheKey cfg token network req.timestamp
    match tiers.cached with
    | some usd =>
      ({ status := 200, data := some (.cachedData usd), queued := false }, [])
    | none =>
      match tiers.dbPrice with
      | some doc =>
        ({ status := 200, data := some (.dbData doc), queued := false },
         [.cacheSetEx cacheKey cfg.cacheTtlCurrentPrice doc.usd])
      | none =>
        match tiers.alchemyPrice with
        | some p =>
          ({ status := 200, data := some (.apiData p), queued := false },
           [.cacheSetEx cacheKey cfg.cacheTtlCurrentPrice p.usd, .dbStorePrice p]
             ++ (if tiers.knownToken then []
                 else match tiers.creationDate with
                      | some _ => [.addTokenEntry token network]
                      | none => []))
        | none =>
          match tiers.interpolated with
          | some p =>
            ({ status := 200, data := some (.interpolatedData p), queued := false },
             [.cacheSetEx cacheKey cfg.cacheTtlInterpolatedPrice p.usd,
              .dbStorePrice { p with interpolated := true }])
          | none =>
            ({ status := 202, data := none, queued := true },
             [.enqueueFetchMissingPrice token network req.timestamp
                (if req.timestamp.isSome then 1 else 10)])

/-! The queue workers (src/unnamed/part_002 startQueueWorkers and
src/unnamed/part_001 DataLifecycleManager). -/

/-- A price-processing job payload. -/
structure JobPayload where
  token : String
  network : String
  timestamp : Option Int
deriving Repr, DecidableEq

/-- Observable steps of a worker run, in program order. -/
inductive WorkerStep where
  | oracleFetch (token network : String) (timestamp : Option Int)
  | interpolationAttempt (token network : String) (timestamp : Option Int)
  | cacheWrite (key : String) (ttlSeconds : Nat)
  | storeWrite (docId : String)
  | tokenEntryWrite (token network : String)
deriving Repr, DecidableEq

/-- The value a price-processing job resolves with. -/
inductive WorkerOutcome where
  | success (interpolatedFlag : Bool)
  | noData
deriving Repr, DecidableEq

/-- The collections a price-processing worker touches: prices plus the
token registry (token lowercased, network). -/
structure WorkerDb where
  prices : List StoredPrice := []
  tokens : List (String × String) := []
deriving Repr, DecidableEq

/-- The price-processing worker body (src/unnamed/part_002 lines
362-431).  `oracle` is the resolved value of `getTokenPriceWithRetry`
(a throw there fails the job to the queue's own retry, not modelled
here), `interp` the interpolation engine's result, `creationDate` the
`getTokenCreationDate` result.  The worker performs the oracle fetch as
its FIRST step, unconditionally - it never consults the prices
collection before doing external work, and it has no skip outcome. -/
def priceWorker (cfg : AppConfig) (now : Int)
    (oracle : JobPayload → Option PriceData)
    (interp : JobPayload → Option PriceData)
    (creationDate : Option Int)
    (db : WorkerDb) (job : JobPayload) :
    WorkerDb × WorkerOutcome × List WorkerStep :=
  let fetchStep := WorkerStep.oracleFetch job.token job.network job.timestamp
  match oracle job with
  | some price =>
    let cacheKey := generateCacheKey cfg job.token job.network job.timestamp
    let db1 := { db with prices := storeTokenPrice now price db.prices }
    let steps1 := [fetchStep, .cacheWrite cacheKey cfg.cacheTtlCurrentPrice,
                   .storeWrite (docIdOf price)]
    let known := db.tokens.any
      (fun te => te.1 == lowerStr job.token && te.2 == job.network)
    if known then (db1, .success false, steps1)
    else
      match creationDate with
      | some _ =>
        ({ db1 with tokens := db1.tokens ++ [(lowerStr job.token, job.network)] },
         .success false, steps1 ++ [.tokenEntryWrite job.token job.network])
      | none => (db1, .success false, steps1)
  | none =>
    match interp job with
    | some ip =>
      let cacheKey := generateCacheKey cfg job.token job.network job.timestamp
      let stored := { ip with interpolated := true }
      ({ db with prices := storeTokenPrice now stored db.prices },
       .success true,
       [fetchStep, .interpolationAttempt job.token job.network job.timestamp,
        .cacheWrite cacheKey cfg.cacheTtlInterpolatedPrice,
        .storeWrite (docIdOf stored)])
    | none =>
      (db, .noData,
       [fetchStep, .interpolationAttempt job.token job.network job.timestamp])

/-- Floor an instant to its UTC midnight, `date.setUTCHours(0,0,0,0)`. -/
def dayFloor (t : Int) : Int := (t.ediv 86400000) * 86400000

/-- `DataLifecycleManager.generateDailyTimestamps` (src/unnamed/part_001
lines 871-888): both bounds floored to UTC midnight, then one timestamp
per day stepping 86400000 ms while the value stays at most the end; the
while loop is expressed as a range map (both bounds are day multiples so
the count is diff/day + 1). -/
def generateDailyTimestamps (startDate endDate : Int) : List Int :=
  let current := dayFloor startDate
  let endD := dayFloor endDate
  if current ≤ endD then
    (List.range (((endD - current).ediv 86400000).toNat + 1)).map
      (fun i => current + 86400000 * (i : Int))
  else []

/-- The processed/errors/skipped counters of processBatchHistorical. -/
structure BatchResults where
  processed : Nat := 0
  errors : Nat := 0
  skipped : Nat := 0
deriving Repr, DecidableEq

/-- The per-result loop of `processBatchHistorical` (src/unnamed/part_001
lines 832-864): for each request and its (already) fetched price, first
check the store for an existing exact record and skip if found, else
store the fetched price if there is one, else count an error. -/
def batchStoreLoop (now : Int) :
    List (JobPayload × Option PriceData) → List StoredPrice → BatchResults →
    List StoredPrice × BatchResults
  | [], prices, acc => (prices, acc)
  | (req, fetched) :: rest, prices, acc =>
    match getTokenPrice prices req.token req.network req.timestamp with
    | some _ =>
      batchStoreLoop now rest prices { acc with skipped := acc.skipped + 1 }
    | none =>
      match fetched with
      | some price =>
        batchStoreLoop now rest (storeTokenPrice now price prices)
          { acc with processed := acc.processed + 1 }
      | none =>
        batchStoreLoop now rest prices { acc with errors := acc.errors + 1 }

/-- `DataLifecycleManager.processBatchHistorical` (src/unnamed/part_001
lines 806-869), for the single-token single-network payload the batch
worker passes: generate the daily timestamps, fetch them all positionally
(`batchGetTokenPrices`: the whole batch is fetched before any store
check), then run the store loop. -/
def processBatchHistorical (now : Int) (oracle : JobPayload → Option PriceData)
    (prices : List StoredPrice) (token network : String)
    (startDate endDate : Int) : List StoredPrice × BatchResults :=
  let timestamps := generateDailyTimestamps startDate endDate
  let requests := timestamps.map (fun ts => JobPayload.mk token network (some ts))
  let fetched := requests.map oracle
  batchStoreLoop now (requests.zip fetched) prices {}

/-! Concrete data used by witnesses and counterexamples. -/

/-- A mixed-case token record accepted by the public token regex. -/
def c3Bad : PriceData :=
  { token := "0xABCDEF0123456789ABCDEF0123456789ABCDEF01", network := "ethereum",
    timestamp := some 1704067200000, usd := 3 }

/-- The same record with the token already lowercase. -/
def c3Low : PriceData :=
  { token := "0xabcdef0123456789abcdef0123456789abcdef01", network := "ethereum",
    timestamp := some 1704067200000, usd := 3 }

/-- A record stored at epoch instant 0. -/
def c9Old : PriceData :=
  { token := "0xabcdef0123456789abcdef0123456789abcdef01", network := "ethereum",
    timestamp := some 0, usd := 3 }

/-- A store holding only c9Old, inserted through storeTokenPrice at
instant 0. -/
def c9State : DbState := { prices := storeTokenPrice 0 c9Old [], archived := [] }

/-- A stored polygon record for the store-hit scenario. -/
def c1Doc : StoredPrice :=
  { docId := "0xbbbbbbbbbbbbbbbbbbbbbbbbbbbbbbbbbbbbbbbb_polygon_1704067200000",
    token := "0xbbbbbbbbbbbbbbbbbbbbbbbbbbbbbbbbbbbbbbbb", network := "polygon",
    timestamp := some 1704067200000, usd := 3, interpolated := false,
    storedAt := 0, createdAt := none }

/-- The request matching c1Doc. -/
def c1Req : ApiRequest :=
  { token := some "0xbbbbbbbbbbbbbbbbbbbbbbbbbbbbbbbbbbbbbbbb",
    network := some "polygon", timestamp := some 1704067200000 }

/-- Tier results: cache empty, store hit with c1Doc. -/
def c1Tiers : TierBackends := { dbPrice := some c1Doc }

/-- A well-formed token address for validation scenarios. -/
def c8Tok : String := "0xaaaaaaaaaaaaaaaaaaaaaaaaaaaaaaaaaaaaaaaa"

/-- A price record returned by the oracle stub for the worker scenario. -/
def c5Price : PriceData :=
  { token := "0xabcdef0123456789abcdef0123456789abcdef01", network := "ethereum",
    timestamp := some 1704067200000, usd := 3 }

/-- The job payload matching c5Price. -/
def c5Job : JobPayload :=
  { token := "0xabcdef0123456789abcdef0123456789abcdef01", network := "ethereum",
    timestamp := some 1704067200000 }

/-- A worker database already holding the record for c5Job. -/
def c5Db : WorkerDb := { prices := storeTokenPrice 0 c5Price [], tokens := [] }

/-! Supporting lemmas about the sorting helpers. -/

theorem mem_insertByTs {q p : PricePoint} {l : List PricePoint} :
    q ∈ insertByTs p l ↔ q = p ∨ q ∈ l := by
  induction l with
  | nil => simp [insertByTs]
  | cons x xs ih =>
    simp only [insertByTs]
    split
    · simp
    · simp [ih]
      tauto

theorem mem_sortByTs_aux {q : PricePoint} (l : List PricePoint) :
    ∀ acc, q ∈ l.foldl (fun acc p => insertByTs p acc) acc ↔ q ∈ acc ∨ q ∈ l := by
  induction l with
  | nil => intro acc; simp
  | cons x xs ih =>
    intro acc
    simp only [List.foldl_cons, ih, mem_insertByTs, List.mem_cons]
    tauto

theorem mem_sortByTs {q : PricePoint} {l : List PricePoint} :
    q ∈ sortByTs l ↔ q ∈ l := by
  simpa [sortByTs] using mem_sortByTs_aux l []

theorem lastTwo_mem {l : List PricePoint} {x y : PricePoint}
    (h : lastTwo l = some (x, y)) : x ∈ l ∧ y ∈ l := by
  unfold lastTwo at h
  rcases hr : l.reverse with _ | ⟨b, tl⟩
  · rw [hr] at h; cases h
  · rcases tl with _ | ⟨a, rest⟩
    · rw [hr] at h; cases h
    · rw [hr] at h
      simp only [Option.some.injEq, Prod.mk.injEq] at h
      obtain ⟨ha, hb⟩ := h
      have hx : x ∈ l.reverse := by rw [hr, ← ha]; simp
      have hy : y ∈ l.reverse := by rw [hr, ← hb]; simp
      exact ⟨List.mem_reverse.mp hx, List.mem_reverse.mp hy⟩

theorem trendPoints_snd_mem {sorted : List PricePoint} {t : Int}
    {pA pB : PricePoint} (h : trendPoints sorted t = some (pA, pB)) :
    pB ∈ sorted := by
  unfold trendPoints at h
  rcases sorted with _ | ⟨p0, _ | ⟨p1, rest⟩⟩
  · cases h
  · cases h
  · simp only [Option.some.injEq] at h
    split at h
    · rw [Prod.mk.injEq] at h
      rw [← h.2]; simp
    · rcases hlt : lastTwo (p0 :: p1 :: rest) with _ | pr
      · rw [hlt] at h; simp only [Option.getD_none, Prod.mk.injEq] at h
        rw [← h.2]; simp
      · rw [hlt] at h; simp only [Option.getD_some] at h
        rw [h] at hlt
        exact (lastTwo_mem hlt).2

/-- C2: the linear interpolation between the latest point before the target
and the earliest point after it returns
`before.usd + (after.usd - before.usd) * ratio` where
`ratio = (target - before.ts) / (after.ts - before.ts)` and `ratio = 0`
when the two reference timestamps coincide; a target exactly midway
between usd=10 and usd=20 yields usd=15 exactly. -/
theorem C2_linear_interpolation_formula :
    (∀ (b a : PricePoint) (t : Int),
      (linearInterpolation b a t).usd
        = b.usd + (a.usd - b.usd) *
            (if a.ts = b.ts then 0
             else ((t - b.ts : Int) : Rat) / ((a.ts - b.ts : Int) : Rat)))
    ∧ (linearInterpolation ⟨0, 10⟩ ⟨200, 20⟩ 100).usd = 15 := by
  constructor
  · intro b a t
    by_cases h : a.ts = b.ts
    · simp [linearInterpolation, ratioOf, h]
    · have h2 : a.ts - b.ts ≠ 0 := sub_ne_zero.mpr h
      simp [linearInterpolation, ratioOf, h, h2]
  · norm_num [linearInterpolation, ratioOf]

/-- C6 counterexample: extrapolating backwards from the points
(ts=100, usd=10) and (ts=200, usd=100) to target 0 with the default
extrapolationMaxChangePercent of 50 returns usd=50, because the clamp is
anchored at the later trend point (usd=100), not at the point nearest to
the target (usd=10): 50 lies outside [10*(1-k), 10*(1+k)] for k=0.5. -/
theorem C6_counterexample :
    (extrapolatePrice 50 [⟨100, 10⟩, ⟨200, 100⟩] 0).map (fun r => r.usd) = some 50
    ∧ ¬((10 : Rat) * (1 - 50 / 100) ≤ 50 ∧ (50 : Rat) ≤ 10 * (1 + 50 / 100)) := by
  constructor
  · norm_num [extrapolatePrice, trendPoints, sortByTs, insertByTs, lastTwo]
  · norm_num

/-- C6 amended: every successful extrapolation result is strictly
positive (floored at 1/10000), and is clamped within plus-or-minus k of
the usd of the later of the two trend points the code selects (one of the
supplied points) - which for forward extrapolation is the nearest known
point, but for backward extrapolation is the second-earliest point. -/
theorem C6_extrapolation_clamp (pct : Rat) (prices : List PricePoint) (t : Int)
    (r : InterpResult) (hpct : 0 ≤ pct)
    (hpos : ∀ p ∈ prices, 0 ≤ p.usd)
    (h : extrapolatePrice pct prices t = some r) :
    0 < r.usd ∧
    ∃ p2 ∈ prices, p2.usd * (1 - pct / 100) ≤ r.usd ∧
      r.usd ≤ max (1 / 10000) (p2.usd * (1 + pct / 100)) := by
  unfold extrapolatePrice at h
  split at h
  · cases h
  · rcases htp : trendPoints (sortByTs prices) t with _ | ⟨pA, pB⟩
    · rw [htp] at h; cases h
    · rw [htp] at h
      simp only at h
      split at h
      · cases h
      · simp only [Option.some.injEq] at h
        have hmem : pB ∈ prices := mem_sortByTs.mp (trendPoints_snd_mem htp)
        have husd : 0 ≤ pB.usd := hpos pB hmem
        have hk : 0 ≤ pct / 100 := by positivity
        have habs : |pB.usd * (pct / 100)| = pB.usd * (pct / 100) :=
          abs_of_nonneg (mul_nonneg husd hk)
        set raw : Rat :=
          pB.usd + (pB.usd - pA.usd) / ((pB.ts - pA.ts : Int) : Rat) *
            ((t - pB.ts : Int) : Rat) with hraw
        have hr : r.usd = max (1 / 10000)
            (max (pB.usd - |pB.usd * (pct / 100)|)
              (min (pB.usd + |pB.usd * (pct / 100)|) raw)) := by
          rw [← h]
        rw [habs] at hr
        refine ⟨?_, pB, hmem, ?_, ?_⟩
        · calc (0 : Rat) < 1 / 10000 := by norm_num
            _ ≤ r.usd := by rw [hr]; exact le_max_left _ _
        · have h1 : pB.usd * (1 - pct / 100) = pB.usd - pB.usd * (pct / 100) := by
            ring
          rw [h1, hr]
          exact le_trans (le_max_left _ _) (le_max_right _ _)
        · have h2 : pB.usd + pB.usd * (pct / 100) = pB.usd * (1 + pct / 100) := by
            ring
          rw [hr]
          apply max_le_max_left
          rw [← h2]
          have hd : 0 ≤ pB.usd * (pct / 100) := mul_nonneg husd hk
          exact max_le (by linarith) (min_le_left _ _)

/-- Witness for C6_extrapolation_clamp at the concrete backward
extrapolation input. -/
theorem C6_extrapolation_clamp_witness :
    0 < (InterpResult.mk 50 "extrapolation" [⟨100, 10⟩, ⟨200, 100⟩]).usd ∧
    ∃ p2 ∈ [PricePoint.mk 100 10, PricePoint.mk 200 100],
      p2.usd * (1 - (50 : Rat) / 100)
          ≤ (InterpResult.mk 50 "extrapolation" [⟨100, 10⟩, ⟨200, 100⟩]).usd ∧
      (InterpResult.mk 50 "extrapolation" [⟨100, 10⟩, ⟨200, 100⟩]).usd
          ≤ max (1 / 10000) (p2.usd * (1 + (50 : Rat) / 100)) :=
  C6_extrapolation_clamp 50 [⟨100, 10⟩, ⟨200, 100⟩] 0
    ⟨50, "extrapolation", [⟨100, 10⟩, ⟨200, 100⟩]⟩
    (by norm_num)
    (by intro p hp; fin_cases hp <;> norm_num)
    (by norm_num [extrapolatePrice, trendPoints, sortByTs, insertByTs, lastTwo])

/-- C7 counterexample: with both reference timestamps equal to the target
(and equal prices usd=10), the code computes confidence 1 (targetPosition
defaults to 0.5, full time confidence), while the claim's formula with
position equal to the interpolation ratio (which is 0 there) yields 1/2. -/
theorem C7_counterexample :
    calculateConfidence [⟨0, 10⟩, ⟨0, 10⟩] 0 "linear" = 1
    ∧ ((1 - |(1 : Rat) / 2 - ratioOf ⟨0, 10⟩ ⟨0, 10⟩ 0| * 2)
        + max 0 (1 - |(10 : Rat) - 10| / (((10 : Rat) + 10) / 2))) / 2 = 1 / 2
    ∧ (1 : Rat) ≠ 1 / 2 := by
  refine ⟨?_, ?_, by norm_num⟩
  · norm_num [calculateConfidence, linearConfidence]
  · rw [ratioOf]
    norm_num [abs_of_nonneg]

/-- C7 amended: for positive reference prices, the linear confidence is
(timeConfidence + volatilityConfidence)/2 with
timeConfidence = 1 - 2*|0.5 - position|, where position equals the
interpolation ratio when the reference timestamps differ and 0.5 (not
the ratio, which would be 0) when they coincide; volatilityConfidence is
max(0, 1 - |after.usd - before.usd| / mean).  When all timestamps
coincide linear interpolation returns before.usd. -/
theorem C7_linear_confidence (b a : PricePoint) (t : Int)
    (hb : 0 < b.usd) (ha : 0 < a.usd) :
    calculateConfidence [b, a] t "linear"
      = ((1 - |(1 : Rat) / 2 - (if a.ts = b.ts then 1 / 2 else ratioOf b a t)| * 2)
          + max 0 (1 - |a.usd - b.usd| / ((a.usd + b.usd) / 2))) / 2
    ∧ (a.ts = b.ts → (linearInterpolation b a t).usd = b.usd) := by
  have havg : 0 < (a.usd + b.usd) / 2 := by linarith
  have havg0 : (a.usd + b.usd) / 2 ≠ 0 := ne_of_gt havg
  have hvol0 : 0 ≤ |a.usd - b.usd| / ((a.usd + b.usd) / 2) :=
    div_nonneg (abs_nonneg _) (le_of_lt havg)
  have hvol1 : max 0 (1 - |a.usd - b.usd| / ((a.usd + b.usd) / 2)) ≤ 1 :=
    max_le (by norm_num) (by linarith)
  constructor
  · show linearConfidence b a t = _
    unfold linearConfidence
    simp only [if_neg havg0]
    have hposn : (if (a.ts - b.ts : Int) = 0 then (1 : Rat) / 2
        else ((t - b.ts : Int) : Rat) / ((a.ts - b.ts : Int) : Rat))
        = (if a.ts = b.ts then 1 / 2 else ratioOf b a t) := by
      by_cases hts : a.ts = b.ts
      · have hspan : a.ts - b.ts = 0 := by omega
        rw [if_pos hspan, if_pos hts]
      · have hspan : ¬(a.ts - b.ts = 0) := fun hc => hts (by omega)
        rw [if_neg hspan, if_neg hts, ratioOf, if_neg hspan]
    rw [hposn]
    rw [min_eq_right]
    have htc : 1 - |(1 : Rat) / 2
        - (if a.ts = b.ts then 1 / 2 else ratioOf b a t)| * 2 ≤ 1 := by
      have := abs_nonneg ((1 : Rat) / 2
        - (if a.ts = b.ts then 1 / 2 else ratioOf b a t))
      linarith
    linarith
  · intro hts
    have hspan : a.ts - b.ts = 0 := by omega
    simp [linearInterpolation, ratioOf, hspan]

/-- Witness for C7_linear_confidence at concrete points (0,10), (200,20),
target 100. -/
theorem C7_linear_confidence_witness :
    calculateConfidence [⟨0, 10⟩, ⟨200, 20⟩] 100 "linear"
      = ((1 - |(1 : Rat) / 2 - (if (200 : Int) = (0 : Int) then 1 / 2
            else ratioOf ⟨0, 10⟩ ⟨200, 20⟩ 100)| * 2)
          + max 0 (1 - |(20 : Rat) - 10| / (((20 : Rat) + 10) / 2))) / 2
    ∧ ((200 : Int) = (0 : Int) → (linearInterpolation ⟨0, 10⟩ ⟨200, 20⟩ 100).usd = 10) :=
  C7_linear_confidence ⟨0, 10⟩ ⟨200, 20⟩ 100 (by norm_num) (by norm_num)

/-- C10: the interpolation engine is total at its interface - it returns
a synthesized record or none, and a throwing durable-store query
(modelled by the Except argument) is caught by the body's catch-all and
yields none rather than a propagated exception. -/
theorem C10_interpolation_totality :
    (∀ (cfg : InterpolationConfig) (e : String) (t : Int),
        interpolatePrice cfg (.error e) t = none)
    ∧ (∀ (cfg : InterpolationConfig) (nearest : Except String (List PricePoint))
        (t : Int),
        interpolatePrice cfg nearest t = none
        ∨ ∃ r, interpolatePrice cfg nearest t = some r) := by
  constructor
  · intro cfg e t; rfl
  · intro cfg nearest t
    cases h : interpolatePrice cfg nearest t
    · exact Or.inl rfl
    · exact Or.inr ⟨_, rfl⟩

end TokenPriceStorage

namespace TokenPriceStorage

/-- C3 is a code bug: StorePrice(R) followed by
GetPrice(R.token, R.network, R.timestamp) returns nothing when R.token is
a mixed-case spelling accepted by the token regex, because
storeTokenPrice stores the token as given while getTokenPrice lowercases
the query (every other store method - addToken, storeTokenMetadata - does
lowercase).  For an already-lowercase token the round-trip does return
the record with matching identity fields and usd. -/
theorem C3_roundtrip_case_bug :
    tokenRegexMatches "0xABCDEF0123456789ABCDEF0123456789ABCDEF01" = true ∧
    getTokenPrice (storeTokenPrice 0 c3Bad []) c3Bad.token c3Bad.network c3Bad.timestamp
      = none ∧
    (getTokenPrice (storeTokenPrice 0 c3Low []) c3Low.token c3Low.network
        c3Low.timestamp).map (fun d => (d.token, d.network, d.timestamp, d.usd))
      = some (c3Low.token, c3Low.network, c3Low.timestamp, c3Low.usd) := by
  decide

/-- C9 is a code bug: archiveOldData filters on a createdAt field that
storeTokenPrice never writes (it writes storedAt), so a record stored 100
days ago is not archived with a 90-day threshold: the function returns 0
and both the prices and archived collections are unchanged. -/
theorem C9_archive_matches_nothing :
    (∀ d ∈ c9State.prices,
        d.createdAt = none ∧ d.storedAt < 100 * 86400000 - 90 * 86400000) ∧
    archiveOldData (100 * 86400000) 90 c9State = (c9State, 0) := by
  decide

end TokenPriceStorage

namespace TokenPriceStorage

theorem retryFrom_calls_le (o : Nat → FetchOutcome) (m r : Nat) :
    ∀ fuel att, (retryFrom o m r att fuel).calls ≤ fuel := by
  intro fuel
  induction fuel with
  | zero => intro att; simp [retryFrom]
  | succ n ih =>
    intro att
    cases ho : o att with
    | price p => simp [retryFrom, ho]
    | noPrice =>
      simp only [retryFrom, ho]
      simpa using Nat.succ_le_succ (ih (att + 1))
    | err e =>
      simp only [retryFrom, ho]
      split
      · simp
      · simpa using Nat.succ_le_succ (ih (att + 1))

theorem retryFrom_sleeps (o : Nat → FetchOutcome) (m r : Nat) :
    ∀ fuel att, att + fuel = m + 1 →
      ∀ d ∈ (retryFrom o m r att fuel).sleepsMs,
        ∃ a, att ≤ a ∧ a < m ∧ (∃ e, o a = .err e) ∧ d = 2 ^ a * r := by
  intro fuel
  induction fuel with
  | zero => intro att _ d hd; simp [retryFrom] at hd
  | succ n ih =>
    intro att hinv d hd
    simp only [retryFrom] at hd
    cases ho : o att with
    | price p => rw [ho] at hd; simp at hd
    | noPrice =>
      rw [ho] at hd
      simp only at hd
      obtain ⟨a, ha1, ha2, ha3, ha4⟩ := ih (att + 1) (by omega) d hd
      exact ⟨a, by omega, ha2, ha3, ha4⟩
    | err e =>
      rw [ho] at hd
      simp only at hd
      split at hd
      · simp at hd
      · rename_i hne
        rcases List.mem_cons.mp hd with h1 | h2
        · exact ⟨att, le_refl _, by omega, ⟨e, ho⟩, h1⟩
        · obtain ⟨a, ha1, ha2, ha3, ha4⟩ := ih (att + 1) (by omega) d h2
          exact ⟨a, by omega, ha2, ha3, ha4⟩

theorem retryFrom_allNull (o : Nat → FetchOutcome) (m r : Nat) :
    ∀ fuel att, (∀ a, att ≤ a → a < att + fuel → o a = .noPrice) →
      retryFrom o m r att fuel = { result := .ok none, calls := fuel, sleepsMs := [] } := by
  intro fuel
  induction fuel with
  | zero => intro att _; rfl
  | succ n ih =>
    intro att hnull
    have h0 : o att = .noPrice := hnull att (le_refl _) (by omega)
    simp only [retryFrom, h0]
    rw [ih (att + 1) (fun a h1 h2 => hnull a (by omega) (by omega))]

/-- C4 counterexample: the claim that a null return from getTokenPrice is
not retried is false - with an oracle returning null on attempt 1 and a
price on attempt 2, getTokenPriceWithRetry makes a second call. -/
theorem C4_counterexample :
    ¬ (∀ (oracle : Nat → FetchOutcome) (maxRetries retryDelay : Nat),
        oracle 1 = .noPrice →
        (getTokenPriceWithRetry oracle maxRetries retryDelay).calls ≤ 1) := by
  intro hclaim
  have h := hclaim (fun attempt => if attempt = 1 then .noPrice else
    .price { token := "0xabcdef0123456789abcdef0123456789abcdef01",
             network := "ethereum", timestamp := none, usd := 3 }) 3 1000 rfl
  have hc : (getTokenPriceWithRetry (fun attempt => if attempt = 1 then .noPrice else
    .price { token := "0xabcdef0123456789abcdef0123456789abcdef01",
             network := "ethereum", timestamp := none, usd := 3 }) 3 1000).calls = 2 := rfl
  omega

/-- C4 amended: getTokenPrice is attempted at most maxRetries times;
every backoff sleep is 2^attempt * retryDelay ms and follows a thrown
error on a non-final attempt; but a null return is also retried -
immediately, without backoff - and only after maxRetries null attempts
is null returned. -/
theorem C4_retry_behavior (oracle : Nat → FetchOutcome) (maxRetries retryDelay : Nat) :
    (getTokenPriceWithRetry oracle maxRetries retryDelay).calls ≤ maxRetries
    ∧ (∀ d ∈ (getTokenPriceWithRetry oracle maxRetries retryDelay).sleepsMs,
        ∃ a, 1 ≤ a ∧ a < maxRetries ∧ (∃ e, oracle a = .err e) ∧ d = 2 ^ a * retryDelay)
    ∧ ((∀ a, 1 ≤ a → a ≤ maxRetries → oracle a = .noPrice) →
        getTokenPriceWithRetry oracle maxRetries retryDelay
          = { result := .ok none, calls := maxRetries, sleepsMs := [] }) := by
  refine ⟨retryFrom_calls_le oracle maxRetries retryDelay maxRetries 1, ?_, ?_⟩
  · intro d hd
    exact retryFrom_sleeps oracle maxRetries retryDelay maxRetries 1 (by omega) d hd
  · intro hnull
    exact retryFrom_allNull oracle maxRetries retryDelay maxRetries 1
      (fun a h1 h2 => hnull a h1 (by omega))

theorem C4_retry_behavior_witness :
    (getTokenPriceWithRetry (fun _ => FetchOutcome.noPrice) 3 1000).calls ≤ 3
    ∧ (∀ d ∈ (getTokenPriceWithRetry (fun _ => FetchOutcome.noPrice) 3 1000).sleepsMs,
        ∃ a, 1 ≤ a ∧ a < 3 ∧ (∃ e, (fun _ => FetchOutcome.noPrice) a = FetchOutcome.err e)
          ∧ d = 2 ^ a * 1000)
    ∧ (getTokenPriceWithRetry (fun _ => FetchOutcome.noPrice) 3 1000
        = { result := .ok none, calls := 3, sleepsMs := [] }) :=
  ⟨(C4_retry_behavior _ 3 1000).1, (C4_retry_behavior _ 3 1000).2.1,
   (C4_retry_behavior _ 3 1000).2.2 (fun _ _ _ => rfl)⟩

end TokenPriceStorage

namespace TokenPriceStorage

/-- C1 counterexample: on a cache miss with a store hit the handler does
return the record tagged fromDB under the derived key, but it caches it
with config.cache.ttl.currentPrice (default 300 s, the "hot" TTL), not
the "warm" historical-price TTL (default 3600 s). -/
theorem C1_counterexample :
    (postApiTokens defaultConfig c1Req c1Tiers).1
      = { status := 200, data := some (.dbData c1Doc), queued := false } ∧
    (postApiTokens defaultConfig c1Req c1Tiers).2
      = [Effect.cacheSetEx
          (generateCacheKey defaultConfig "0xbbbbbbbbbbbbbbbbbbbbbbbbbbbbbbbbbbbbbbbb"
            "polygon" (some 1704067200000))
          defaultConfig.cacheTtlCurrentPrice c1Doc.usd] ∧
    defaultConfig.cacheTtlCurrentPrice = 300 ∧
    defaultConfig.cacheTtlHistoricalPrice = 3600 ∧
    defaultConfig.cacheTtlCurrentPrice ≠ defaultConfig.cacheTtlHistoricalPrice := by
  decide

/-- C1 amended: for every valid request that misses the cache and hits
the durable store, the reply is the stored record tagged fromDB and the
cache is re-populated under the derived key - but with the current-price
TTL (config.cache.ttl.currentPrice), not the warm/historical TTL. -/
theorem C1_db_hit (cfg : AppConfig) (token network : String) (ts : Option Int)
    (tiers : TierBackends) (doc : StoredPrice)
    (hTok : tokenRegexMatches token = true)
    (hNetNe : network ≠ "")
    (hNet : cfg.supportedNetworks.contains (lowerStr network) = true)
    (hCache : tiers.cached = none)
    (hDb : tiers.dbPrice = some doc) :
    postApiTokens cfg { token := some token, network := some network, timestamp := ts }
        tiers
      = ({ status := 200, data := some (.dbData doc), queued := false },
         [Effect.cacheSetEx (generateCacheKey cfg token network ts)
            cfg.cacheTtlCurrentPrice doc.usd]) := by
  have hTokNe : token ≠ "" := by
    intro he; rw [he] at hTok; exact absurd hTok (by decide)
  unfold postApiTokens
  simp only [Option.getD_some]
  rw [if_neg (by tauto), if_neg (by simp [hTok]), if_neg (by simpa using hNet),
    hCache, hDb]

/-- Witness for C1_db_hit at the concrete polygon store-hit scenario. -/
theorem C1_db_hit_witness :
    postApiTokens defaultConfig
        { token := some "0xbbbbbbbbbbbbbbbbbbbbbbbbbbbbbbbbbbbbbbbb",
          network := some "polygon", timestamp := some 1704067200000 } c1Tiers
      = ({ status := 200, data := some (.dbData c1Doc), queued := false },
         [Effect.cacheSetEx
            (generateCacheKey defaultConfig "0xbbbbbbbbbbbbbbbbbbbbbbbbbbbbbbbbbbbbbbbb"
              "polygon" (some 1704067200000))
            defaultConfig.cacheTtlCurrentPrice c1Doc.usd]) :=
  C1_db_hit defaultConfig "0xbbbbbbbbbbbbbbbbbbbbbbbbbbbbbbbbbbbbbbbb" "polygon"
    (some 1704067200000) c1Tiers c1Doc (by decide) (by decide) (by decide) rfl rfl

/-- Every validation failure returns the 400 reply with no effects. -/
theorem postApiTokens_invalid (cfg : AppConfig) (req : ApiRequest) (tiers : TierBackends)
    (hbad : tokenRegexMatches (req.token.getD "") = false
      ∨ cfg.supportedNetworks.contains (lowerStr (req.network.getD "")) = false) :
    postApiTokens cfg req tiers = ({ status := 400, data := none, queued := false }, []) := by
  unfold postApiTokens
  by_cases h1 : req.token.getD "" = ""
  · rw [if_pos (Or.inl h1)]
  · by_cases h2 : req.network.getD "" = ""
    · rw [if_pos (Or.inr h2)]
    · rw [if_neg (by tauto)]
      rcases hbad with hb | hb
      · simp [hb]
      · cases h3 : tokenRegexMatches (req.token.getD "") <;> simp [h3, hb]
        intro hmem
        exact absurd hmem (by simpa using hb)

/-- Every request passing validation reaches the tiers: 200 or 202. -/
theorem postApiTokens_valid_status (cfg : AppConfig) (req : ApiRequest)
    (tiers : TierBackends)
    (hTok : tokenRegexMatches (req.token.getD "") = true)
    (hNet : cfg.supportedNetworks.contains (lowerStr (req.network.getD "")) = true)
    (hNetNe : req.network.getD "" ≠ "") :
    (postApiTokens cfg req tiers).1.status = 200
    ∨ (postApiTokens cfg req tiers).1.status = 202 := by
  have hTokNe : req.token.getD "" ≠ "" := by
    intro he; rw [he] at hTok; exact absurd hTok (by decide)
  unfold postApiTokens
  rw [if_neg (by tauto), if_neg (by simp [hTok]), if_neg (by simpa using hNet)]
  cases tiers.cached
  · cases tiers.dbPrice
    · cases tiers.alchemyPrice
      · cases tiers.interpolated
        · right; rfl
        · left; rfl
      · left; rfl
    · left; rfl
  · left; rfl

/-- C8 counterexample: under the default configuration a request for
network "bsc" - a member of the claim's supported set - fails validation
with 400 (the config default list omits bsc and avalanche), while network
"ETHEREUM" - not a member of the claimed lowercase set - passes
validation (the check lowercases first) and proceeds to the tiers
(202 with empty backends). -/
theorem C8_counterexample :
    ((postApiTokens defaultConfig
        { token := some c8Tok, network := some "bsc", timestamp := none } {}).1.status
        = 400
      ∧ "bsc" ∈ ["ethereum", "polygon", "bsc", "avalanche", "arbitrum", "optimism"]) ∧
    ((postApiTokens defaultConfig
        { token := some c8Tok, network := some "ETHEREUM", timestamp := none } {}).1.status
        = 202
      ∧ "ETHEREUM" ∉ ["ethereum", "polygon", "bsc", "avalanche", "arbitrum", "optimism"]) := by
  decide

/-- C8 amended: a request whose token fails the regex or whose lowercased
network is not in the CONFIGURED supported list (default: ethereum,
polygon, arbitrum, optimism) fails synchronously with 400, performing no
effects and never consulting any tier; a request with a regex-valid token
and a (case-insensitively) supported non-empty network always passes
validation and reaches the tiers (status 200 or 202). -/
theorem C8_validation :
    (∀ (cfg : AppConfig) (req : ApiRequest) (tiers tiers' : TierBackends),
      (tokenRegexMatches (req.token.getD "") = false
          ∨ cfg.supportedNetworks.contains (lowerStr (req.network.getD "")) = false) →
        (postApiTokens cfg req tiers).1.status = 400
        ∧ (postApiTokens cfg req tiers).2 = []
        ∧ postApiTokens cfg req tiers = postApiTokens cfg req tiers')
    ∧ (∀ (cfg : AppConfig) (req : ApiRequest) (tiers : TierBackends),
      tokenRegexMatches (req.token.getD "") = true →
      cfg.supportedNetworks.contains (lowerStr (req.network.getD "")) = true →
      req.network.getD "" ≠ "" →
      (postApiTokens cfg req tiers).1.status = 200
      ∨ (postApiTokens cfg req tiers).1.status = 202) := by
  constructor
  · intro cfg req tiers tiers' hbad
    have h1 := postApiTokens_invalid cfg req tiers hbad
    have h2 := postApiTokens_invalid cfg req tiers' hbad
    exact ⟨by rw [h1], by rw [h1], by rw [h1, h2]⟩
  · intro cfg req tiers hTok hNet hNetNe
    exact postApiTokens_valid_status cfg req tiers hTok hNet hNetNe

/-- Witness for C8_validation: a malformed token is rejected identically
for two different tier backends, and a valid ethereum request passes. -/
theorem C8_validation_witness :
    ((postApiTokens defaultConfig
          { token := some "0xzz", network := some "ethereum", timestamp := none }
          {}).1.status = 400
      ∧ (postApiTokens defaultConfig
          { token := some "0xzz", network := some "ethereum", timestamp := none }
          {}).2 = []
      ∧ postApiTokens defaultConfig
          { token := some "0xzz", network := some "ethereum", timestamp := none } {}
        = postApiTokens defaultConfig
          { token := some "0xzz", network := some "ethereum", timestamp := none }
          { cached := some 3 })
    ∧ ((postApiTokens defaultConfig
          { token := some c8Tok, network := some "ethereum", timestamp := none }
          {}).1.status = 200
      ∨ (postApiTokens defaultConfig
          { token := some c8Tok, network := some "ethereum", timestamp := none }
          {}).1.status = 202) :=
  ⟨C8_validation.1 defaultConfig
      { token := some "0xzz", network := some "ethereum", timestamp := none }
      {} { cached := some 3 } (Or.inl (by decide)),
   C8_validation.2 defaultConfig
      { token := some c8Tok, network := some "ethereum", timestamp := none }
      {} (by decide) (by decide) (by decide)⟩

end TokenPriceStorage

namespace TokenPriceStorage

theorem filter_map_replace (id : String) (doc : StoredPrice) (hdoc : doc.docId = id)
    (prices : List StoredPrice) :
    ((prices.map (fun d => if d.docId == id then doc else d)).filter
        (fun d => d.docId == id)).length
      = (prices.filter (fun d => d.docId == id)).length := by
  induction prices with
  | nil => rfl
  | cons x xs ih =>
    by_cases hx : (x.docId == id) = true
    · rw [List.map_cons, if_pos hx]
      rw [List.filter_cons, List.filter_cons]
      rw [if_pos (show (doc.docId == id) = true by simp [hdoc]), if_pos hx]
      rw [List.length_cons, List.length_cons, ih]
    · rw [List.map_cons, if_neg hx]
      rw [List.filter_cons, List.filter_cons]
      rw [if_neg hx, if_neg hx]
      exact ih

theorem storeTokenPrice_count_new (now : Int) (p : PriceData)
    (prices : List StoredPrice)
    (h : (prices.filter (fun d => d.docId == docIdOf p)).length = 0) :
    ((storeTokenPrice now p prices).filter (fun d => d.docId == docIdOf p)).length = 1 := by
  have hnil : prices.filter (fun d => d.docId == docIdOf p) = [] :=
    List.length_eq_zero.mp h
  have hany : prices.any (fun d => d.docId == docIdOf p) = false := by
    rw [List.any_eq_false]
    intro d hd hc
    have hmem : d ∈ prices.filter (fun d => d.docId == docIdOf p) :=
      List.mem_filter.mpr ⟨hd, hc⟩
    rw [hnil] at hmem
    cases hmem
  unfold storeTokenPrice
  rw [if_neg (by simp [hany])]
  rw [List.filter_append, hnil]
  simp

theorem storeTokenPrice_count_pos (now : Int) (p : PriceData)
    (prices : List StoredPrice)
    (h : 0 < (prices.filter (fun d => d.docId == docIdOf p)).length) :
    ((storeTokenPrice now p prices).filter (fun d => d.docId == docIdOf p)).length
      = (prices.filter (fun d => d.docId == docIdOf p)).length := by
  have hne : prices.filter (fun d => d.docId == docIdOf p) ≠ [] := by
    intro hc; rw [hc] at h; simp at h
  obtain ⟨d, hd⟩ := List.exists_mem_of_ne_nil _ hne
  obtain ⟨hdp, hdq⟩ := List.mem_filter.mp hd
  have hany : prices.any (fun d => d.docId == docIdOf p) = true :=
    List.any_eq_true.mpr ⟨d, hdp, hdq⟩
  unfold storeTokenPrice
  rw [if_pos hany]
  exact filter_map_replace (docIdOf p) _ rfl prices

theorem priceWorker_prices (cfg : AppConfig) (now : Int)
    (oracle interp : JobPayload → Option PriceData) (cd : Option Int)
    (db : WorkerDb) (job : JobPayload) (p : PriceData)
    (ho : oracle job = some p) :
    ((priceWorker cfg now oracle interp cd db job).1).prices
      = storeTokenPrice now p db.prices := by
  unfold priceWorker
  rw [ho]
  dsimp only
  split
  · rfl
  · cases cd <;> rfl

end TokenPriceStorage

namespace TokenPriceStorage

/-- C5 counterexample: with the exact record already in the durable
store, the price-processing worker still performs the oracle fetch as
its first step and resolves success - it has no skip outcome and never
consults the store first, contradicting the claimed check-then-skip
behaviour. -/
theorem C5_counterexample :
    (getTokenPrice c5Db.prices c5Job.token c5Job.network c5Job.timestamp).isSome = true ∧
    (priceWorker defaultConfig 1 (fun _ => some c5Price) (fun _ => none) none
        c5Db c5Job).2.2.head?
      = some (.oracleFetch c5Job.token c5Job.network c5Job.timestamp) ∧
    (priceWorker defaultConfig 1 (fun _ => some c5Price) (fun _ => none) none
        c5Db c5Job).2.1 = .success false := by
  decide

/-- C5 amended: the price-processing worker always performs the oracle
fetch first (no store pre-check, no skip), yet invoking it twice with an
identical payload leaves exactly one durable record under the derived
(token, network, timestamp) id, because storeTokenPrice is a replaceOne
upsert; the batch worker does check the store per timestamp - after the
batch fetch - and records a skip without storing. -/
theorem C5_worker_idempotence :
    (∀ (cfg : AppConfig) (now : Int) (oracle interp : JobPayload → Option PriceData)
        (cd : Option Int) (db : WorkerDb) (job : JobPayload),
      (priceWorker cfg now oracle interp cd db job).2.2.head?
        = some (.oracleFetch job.token job.network job.timestamp))
    ∧ (∀ (cfg : AppConfig) (now : Int) (oracle interp : JobPayload → Option PriceData)
        (cd : Option Int) (db : WorkerDb) (job : JobPayload) (p : PriceData),
        oracle job = some p →
        (db.prices.filter (fun d => d.docId == docIdOf p)).length = 0 →
        (((priceWorker cfg now oracle interp cd
              ((priceWorker cfg now oracle interp cd db job).1) job).1).prices.filter
            (fun d => d.docId == docIdOf p)).length = 1)
    ∧ (∀ (now : Int) (reqs : List (JobPayload × Option PriceData))
        (prices : List StoredPrice) (acc : BatchResults),
        (∀ rf ∈ reqs,
          (getTokenPrice prices rf.1.token rf.1.network rf.1.timestamp).isSome = true) →
        batchStoreLoop now reqs prices acc
          = (prices, { acc with skipped := acc.skipped + reqs.length })) := by
  refine ⟨?_, ?_, ?_⟩
  · intro cfg now oracle interp cd db job
    unfold priceWorker
    cases ho : oracle job with
    | some p =>
      dsimp only
      split
      · rfl
      · cases cd <;> rfl
    | none =>
      cases hi : interp job with
      | some ip => rfl
      | none => rfl
  · intro cfg now oracle interp cd db job p ho h0
    have e1 : ((priceWorker cfg now oracle interp cd db job).1).prices
        = storeTokenPrice now p db.prices :=
      priceWorker_prices cfg now oracle interp cd db job p ho
    have e2 : ((priceWorker cfg now oracle interp cd
          ((priceWorker cfg now oracle interp cd db job).1) job).1).prices
        = storeTokenPrice now p ((priceWorker cfg now oracle interp cd db job).1).prices :=
      priceWorker_prices cfg now oracle interp cd _ job p ho
    rw [e2, e1]
    have c1 := storeTokenPrice_count_new now p db.prices h0
    have c2 := storeTokenPrice_count_pos now p (storeTokenPrice now p db.prices)
      (by rw [c1]; exact Nat.zero_lt_one)
    rw [c2, c1]
  · intro now reqs
    induction reqs with
    | nil =>
      intro prices acc _
      simp [batchStoreLoop]
    | cons rf rest ih =>
      intro prices acc h
      obtain ⟨d, hd⟩ := Option.isSome_iff_exists.mp (h rf (List.mem_cons_self _ _))
      rcases rf with ⟨req, fetched⟩
      simp only [batchStoreLoop]
      rw [hd]
      rw [ih prices _ (fun r hr => h r (List.mem_cons_of_mem _ hr))]
      simp only [List.length_cons]
      congr 1
      simp only [BatchResults.mk.injEq, true_and]
      omega

end TokenPriceStorage

namespace TokenPriceStorage

/-- Witness for C5_worker_idempotence: the worker's first step on c5Job
is the oracle fetch, two identical invocations leave exactly one record
under the derived id, and the batch loop skips a request whose record
exists. -/
theorem C5_worker_idempotence_witness :
    (priceWorker defaultConfig 0 (fun _ => some c5Price) (fun _ => none) none
        {} c5Job).2.2.head?
      = some (.oracleFetch c5Job.token c5Job.network c5Job.timestamp)
    ∧ (((priceWorker defaultConfig 0 (fun _ => some c5Price) (fun _ => none) none
          ((priceWorker defaultConfig 0 (fun _ => some c5Price) (fun _ => none) none
            {} c5Job).1) c5Job).1).prices.filter
        (fun d => d.docId == docIdOf c5Price)).length = 1
    ∧ batchStoreLoop 0 [(c5Job, some c5Price)] c5Db.prices {}
        = (c5Db.prices,
           { ({} : BatchResults) with
              skipped := ({} : BatchResults).skipped + [(c5Job, some c5Price)].length }) :=
  ⟨C5_worker_idempotence.1 defaultConfig 0 (fun _ => some c5Price) (fun _ => none)
      none {} c5Job,
   C5_worker_idempotence.2.1 defaultConfig 0 (fun _ => some c5Price) (fun _ => none)
      none {} c5Job c5Price rfl (by decide),
   C5_worker_idempotence.2.2 0 [(c5Job, some c5Price)] c5Db.prices {} (by decide)⟩

end TokenPriceStorage
